import Mathlib

/-!
# kst-git: verification of the change-detection and staging engine

A shallow embedding of the `kst-git` CLI (`src/__main__.py`) in Lean 4.

Modelling conventions:

* A relative path is a `List Char` (the characters of the Python string);
  Python's substring test `x in y` on strings becomes an executable
  substring check on character lists.
* File contents are `List Nat` (the bytes of the file).
* A directory tree is an `FS`: the finite set of relative file paths it
  holds, together with a content function.  `os.walk` only ever yields
  files (never directories), so a tree is modelled by its set of files.
* The mutable on-disk state touched by the commands (working tree,
  `.kst-git/copy` cached snapshot, real remote store, parsed change log
  and the raw bytes of `.kst-git/config.json`) is a `RepoState`; each CLI
  command is a function on `RepoState`.
* External effects with several possible outcomes (WebDAV uploads and
  downloads succeeding or raising) are passed in as explicit oracles
  (`uploadOk : Path → Bool`, `downloadOk : Bool`), so one definition
  covers every run of the command.
-/

namespace KstGit

/-- A relative file path, as the list of characters of the Python string. -/
abbrev Path := List Char

/-- File contents, as a list of byte values. -/
abbrev Bytes := List Nat

/-- Python's substring test `needle in hay` on strings (`__main__.py`
line 135 uses `".kst-git" not in relative_path`): some contiguous slice of
`hay` equals `needle`. -/
def containsSub (needle hay : List Char) : Bool :=
  (List.range (hay.length + 1)).any fun i => List.isPrefixOf needle (hay.drop i)

/-- The check `containsSub` decides the substring (infix) relation. -/
theorem containsSub_iff (needle hay : List Char) :
    containsSub needle hay = true ↔ needle <:+: hay := by
  constructor
  · intro h
    rcases List.any_eq_true.mp h with ⟨i, _, hpre⟩
    exact List.infix_iff_prefix_suffix.mpr
      ⟨hay.drop i, List.isPrefixOf_iff_prefix.mp hpre, List.drop_suffix i hay⟩
  · intro h
    rcases List.infix_iff_prefix_suffix.mp h with ⟨t, hpre, hsuf⟩
    have hdrop := List.suffix_iff_eq_drop.mp hsuf
    apply List.any_eq_true.mpr
    refine ⟨hay.length - t.length, ?_, ?_⟩
    · simp [List.mem_range]
      omega
    · exact List.isPrefixOf_iff_prefix.mpr (hdrop ▸ hpre)

/-- The metadata directory name `".kst-git"`, as a character list. -/
def kstGit : Path := ".kst-git".toList

/-- A directory tree: the set of relative paths of the files under its
root, with their byte contents.  (`content` is only meaningful on members
of `files`.) -/
structure FS where
  files : Finset Path
  content : Path → Bytes

/-- The keep-condition of `generate_file_list` (`__main__.py` line 135):
`".kst-git" not in relative_path and ".kst-git" != relative_path and
relative_path != ""`.  Note the first conjunct is Python *substring*
containment. -/
def keepPath (p : Path) : Bool :=
  !containsSub kstGit p && !(kstGit == p) && !(p == [])

/-- Function `generate_file_list` (`__main__.py` lines 130-137): walk the tree and
collect every file's relative path that passes `keepPath`.  The root is an
`Option FS`: `os.walk` is called with the default `onerror=None`, so a
missing (or unreadable) root raises nothing and yields no entries — the
function returns the empty list, exactly as for an existing empty tree. -/
def generate_file_list (root : Option FS) : Finset Path :=
  match root with
  | none => ∅
  | some fs => fs.files.filter fun p => keepPath p = true

/-- Line 142 of `__main__.py`, `added_files`: `list(set(local) - set(remote))`. -/
def added_files (loc rem : Finset Path) : Finset Path := loc \ rem

/-- Line 143 of `__main__.py`, `deleted_files`: `list(set(remote) - set(local))`. -/
def deleted_files (loc rem : Finset Path) : Finset Path := rem \ loc

/-- Line 145 of `__main__.py`, `common_files`: `set(local) & set(remote)`. -/
def common_files (loc rem : Finset Path) : Finset Path := loc ∩ rem

/-- Function `filecmp.cmp(f1, f2, shallow=False)` on two regular files, from the
CPython stdlib: with `shallow=False` the stat signatures only short-circuit
on differing sizes (`if s1[1] != s2[1]: return False`), then `_do_cmp`
compares the byte contents chunk by chunk.  Modification time plays no
role when `shallow=False`. -/
def filecmp_cmp (a b : Bytes) : Bool :=
  if a.length != b.length then false else a == b

/-- With `shallow=False`, `filecmp.cmp` decides byte-for-byte equality. -/
theorem filecmp_cmp_iff (a b : Bytes) : filecmp_cmp a b = true ↔ a = b := by
  unfold filecmp_cmp
  by_cases h : a.length = b.length
  · simp [h]
  · simp [h]
    intro hab
    exact absurd (congrArg List.length hab) h

/-- Lines 144-152 of `__main__.py`, `modified_files`: the common paths whose
two files' contents are not `filecmp.cmp`-equal under the two roots. -/
def modified_files (locFS remFS : FS) (common : Finset Path) : Finset Path :=
  common.filter fun p => filecmp_cmp (locFS.content p) (remFS.content p) = false

/-- The common paths the diff leaves alone: common files not flagged as
modified (implicit in `__main__.py` — a common path whose `filecmp.cmp`
is true is never appended to `modified_files` and never touched). -/
def unmodified_files (locFS remFS : FS) (common : Finset Path) : Finset Path :=
  common \ modified_files locFS remFS common

/-- The result of the comparison phase of the `diff` command. -/
structure DiffOutcome where
  added : Finset Path
  deleted : Finset Path
  modified : Finset Path
  common : Finset Path
deriving DecidableEq

/-- Lines 139-152 of `__main__.py`: list both trees, then classify. -/
def computeDiff (locFS remFS : FS) : DiffOutcome :=
  let lf := generate_file_list (some locFS)
  let rf := generate_file_list (some remFS)
  { added := added_files lf rf
    deleted := deleted_files lf rf
    modified := modified_files locFS remFS (common_files lf rf)
    common := common_files lf rf }

/-- The staging loops of the `diff` command (`__main__.py` lines 154-176):
every `added` path is copied from the working tree into the cached copy
(`shutil.copy2` after `os.makedirs`), every `deleted` path is removed from
the copy (`os.remove`), every `modified` path is overwritten in the copy
with the working-tree content (`shutil.copy2`).  The three loops touch
pairwise disjoint paths (added ∩ copy = ∅, deleted ⊆ copy \ local,
modified ⊆ local ∩ copy), so their net effect is this pointwise update. -/
def stage (locFS copyFS : FS) (d : DiffOutcome) : FS where
  files := (copyFS.files ∪ d.added) \ d.deleted
  content := fun p =>
    if p ∈ d.added ∨ p ∈ d.modified then locFS.content p else copyFS.content p

/-- One entry of the `changes` list in `.kst-git/config.json`
(`__main__.py` lines 184-190): message, the three path sets (the Python
code stores them as lists whose order is the unspecified iteration order
of a `set`; the sets of paths are what is determined), and a timestamp
(`datetime.now().isoformat()`, modelled as an abstract tick supplied by
the caller). -/
structure CommitRecord where
  message : String
  added : Finset Path
  deleted : Finset Path
  modified : Finset Path
  timestamp : Nat
deriving DecidableEq

/-- Models `json.dump(repo_config, f)` (`__main__.py` line 193): a
deterministic byte serialization of the change log.  No property in this
development depends on the exact JSON byte format, only on the persisted
file being a function of the updated log, so a simple deterministic
encoding stands in for JSON. -/
def encodeConfig (changes : List CommitRecord) : Bytes :=
  changes.foldr
    (fun c acc => (c.message.toList.map Char.toNat) ++ [10, c.timestamp, 10] ++ acc)
    []

/-- The relative path `.kst-git/config.json` of the repository metadata
file (as seen from the repository root, and from the root of the
`.kst-git/copy` cache after `push` copies it there). -/
def kstConfigPath : Path := ".kst-git/config.json".toList

/-- The relative path is the metadata directory itself or nested under it
(first path component `.kst-git`).  This is the set of items the `pull`
command's deletion loop preserves (`__main__.py` line 103: every top-level
item other than `.kst-git` is removed, recursively). -/
def underKstGit (p : Path) : Bool :=
  p == kstGit || List.isPrefixOf (kstGit ++ ['/']) p

/-- The on-disk state a `kst-git` command reads and writes.

* `working`  — the working tree rooted at `cwd`, excluding everything
  under the `.kst-git` metadata directory (which is modelled by the
  remaining fields);
* `copyFS`   — the cached remote snapshot at `.kst-git/copy`;
* `remote`   — the real remote WebDAV store under the configured path;
* `changes`  — the parsed `changes` list of `.kst-git/config.json`;
* `configBytes` — the raw bytes of `.kst-git/config.json` on disk. -/
structure RepoState where
  working : FS
  copyFS : FS
  remote : FS
  changes : List CommitRecord
  configBytes : Bytes

/-- The `diff` command (`__main__.py` lines 114-194).

1. Lines 120-124: delete `.kst-git/copy` and download the remote tree
   into it afresh (so the copy equals the remote tree).
2. Lines 139-152: list both trees with `generate_file_list` and classify
   into added / deleted / modified / common.
3. Lines 154-176: stage the changes into the copy.
4. Lines 178-194: if all three sets are empty, echo "No changes detected."
   and stop — no commit is appended and the config file is not rewritten
   (result `none`); otherwise prompt for a message, append exactly one
   commit record to `changes` and `json.dump` the updated config
   (result `some record`).

`msg` is the reply to the commit-message prompt and `ts` the current
timestamp; both are only consumed in the committing branch. -/
def diffCmd (s : RepoState) (msg : String) (ts : Nat) :
    RepoState × DiffOutcome × Option CommitRecord :=
  let copy0 := s.remote
  let d := computeDiff s.working copy0
  let copy1 := stage s.working copy0 d
  if d.added = ∅ ∧ d.deleted = ∅ ∧ d.modified = ∅ then
    ({ s with copyFS := copy1 }, d, none)
  else
    let newRec := { message := msg, added := d.added, deleted := d.deleted,
                    modified := d.modified, timestamp := ts : CommitRecord }
    ({ s with copyFS := copy1,
              changes := s.changes ++ [newRec],
              configBytes := encodeConfig (s.changes ++ [newRec]) }, d, some newRec)

/-- The upload loop of `push` (`__main__.py` lines 75-87): walk the copy
and, for each file, try to upload it; the body of the loop is wrapped in
`try/except`, the except arm only echoes the error, so the loop always
proceeds to the next file.  `uploadOk p` is the outcome of the attempt to
upload `p` (true: `upload_file` returned, false: it raised).  The result
records, in walk order, each attempted path with its outcome. -/
def uploadLoop (uploadOk : Path → Bool) (files : List Path) : List (Path × Bool) :=
  files.foldl (fun acc p => acc ++ [(p, uploadOk p)]) []

/-- The `push` command (`__main__.py` lines 54-89).

1. Lines 56-63: read the config and copy `.kst-git/config.json` into the
   cached copy at `.kst-git/config.json` (`os.makedirs` then
   `shutil.copy2`) — this happens before the upload loop.
2. Lines 75-87: walk the copy and best-effort upload every file.

`walk` is the enumeration of the copy's files that `os.walk` produces
after step 1 (its order is filesystem-dependent and unspecified; the
theorems below assume only that it enumerates the copy's files).
Returns the copy tree as uploaded from, and the per-file outcomes. -/
def pushCmd (s : RepoState) (walk : List Path) (uploadOk : Path → Bool) :
    FS × List (Path × Bool) :=
  let copyWithConfig : FS :=
    { files := s.copyFS.files ∪ {kstConfigPath}
      content := fun p => if p = kstConfigPath then s.configBytes else s.copyFS.content p }
  (copyWithConfig, uploadLoop uploadOk walk)

/-- The `pull` command (`__main__.py` lines 91-112).  Inside a single
`try` block it first removes every top-level item of the working tree
other than `.kst-git` (lines 100-107), and only then calls
`client.download_directory` (line 109), whose initial remote listing may
fail; `downloadOk` is the outcome of that call.  Any exception is caught
and echoed as "Pull failed" (returned flag `false`).  Note the deletion
loop runs before the remote is contacted at all. -/
def pullCmd (s : RepoState) (downloadOk : Bool) : RepoState × Bool :=
  let cleared : FS :=
    { files := s.working.files.filter fun p => underKstGit p = true
      content := s.working.content }
  if downloadOk then
    ({ s with working :=
        { files := cleared.files ∪ (s.remote.files.filter fun p => underKstGit p = false)
          content := fun p => if p ∈ s.remote.files then s.remote.content p
                              else cleared.content p } }, true)
  else
    ({ s with working := cleared }, false)

/-- An empty directory tree. -/
def emptyFS : FS := { files := ∅, content := fun _ => [] }

/-- Scenario 1 of the spec: the working tree holds one file `a` with
content byte 120 (`"x"`), the remote store is empty, no history. -/
def scenario1 : RepoState :=
  { working := { files := {['a']}, content := fun _ => [120] }
    copyFS := emptyFS
    remote := emptyFS
    changes := []
    configBytes := [] }

/-- Scenario 3 of the spec: both trees hold `c` with identical bytes. -/
def scenario3 : RepoState :=
  { working := { files := {['c']}, content := fun _ => [120] }
    copyFS := emptyFS
    remote := { files := {['c']}, content := fun _ => [120] }
    changes := []
    configBytes := [] }

/-- A state for exercising `push`: two tracked files `a` and `b` in the
cached copy. -/
def pushState : RepoState :=
  { working := emptyFS
    copyFS := { files := {['a'], ['b']}, content := fun _ => [1] }
    remote := emptyFS
    changes := []
    configBytes := [2] }

/-- A walk enumeration of `pushState`'s copy after the config file has
been copied in. -/
def pushWalk : List Path := [['a'], ['b'], kstConfigPath]

/-- An upload oracle under which only the upload of `a` succeeds. -/
def pushOk : Path → Bool := fun p => p == ['a']

/-!
## Helper lemmas
-/

/-- The substring check is false exactly when the needle is not an infix. -/
theorem containsSub_eq_false (needle hay : List Char) :
    containsSub needle hay = false ↔ ¬ needle <:+: hay := by
  rw [← containsSub_iff]
  exact ⟨fun h => by simp [h], fun h => by simpa using h⟩

/-- The keep-condition accepts exactly the nonempty paths not containing
`.kst-git` as a substring (the Python equality conjunct is subsumed: a
string is a substring of itself). -/
theorem keepPath_iff (p : Path) :
    keepPath p = true ↔ ¬ kstGit <:+: p ∧ p ≠ [] := by
  unfold keepPath
  simp only [Bool.and_eq_true, Bool.not_eq_true']
  constructor
  · rintro ⟨⟨hc, -⟩, hne⟩
    refine ⟨(containsSub_eq_false kstGit p).mp hc, ?_⟩
    intro h
    subst h
    simp at hne
  · rintro ⟨hinf, hne⟩
    refine ⟨⟨(containsSub_eq_false kstGit p).mpr hinf, ?_⟩, ?_⟩
    · rw [beq_eq_false_iff_ne]
      intro h
      exact hinf (h ▸ List.infix_refl p)
    · rw [beq_eq_false_iff_ne]
      exact hne

/-- Membership in the lister's output, unfolded. -/
theorem mem_generate_file_list (fs : FS) (p : Path) :
    p ∈ generate_file_list (some fs) ↔
      p ∈ fs.files ∧ ¬ kstGit <:+: p ∧ p ≠ [] := by
  simp [generate_file_list, Finset.mem_filter, keepPath_iff]

/-- The `diff` command never writes to the working tree. -/
theorem diffCmd_working (s : RepoState) (msg : String) (ts : Nat) :
    (diffCmd s msg ts).1.working = s.working := by
  unfold diffCmd
  dsimp only
  split <;> rfl

/-- The `diff` command never writes to the real remote store. -/
theorem diffCmd_remote (s : RepoState) (msg : String) (ts : Nat) :
    (diffCmd s msg ts).1.remote = s.remote := by
  unfold diffCmd
  dsimp only
  split <;> rfl

/-- The outcome reported by `diff` is a function of the working tree and
the remote tree alone. -/
theorem diffCmd_outcome (s : RepoState) (msg : String) (ts : Nat) :
    (diffCmd s msg ts).2.1 = computeDiff s.working s.remote := by
  unfold diffCmd
  dsimp only
  split <;> rfl

/-- The upload loop's accumulator is threaded by appending. -/
theorem uploadLoop_go (uploadOk : Path → Bool) (files : List Path)
    (acc : List (Path × Bool)) :
    files.foldl (fun a p => a ++ [(p, uploadOk p)]) acc =
      acc ++ files.map (fun p => (p, uploadOk p)) := by
  induction files generalizing acc with
  | nil => simp
  | cons x xs ih => simp [List.foldl_cons, ih]

/-- The upload loop records each walked path with its own outcome. -/
theorem uploadLoop_eq_map (uploadOk : Path → Bool) (files : List Path) :
    uploadLoop uploadOk files = files.map fun p => (p, uploadOk p) := by
  unfold uploadLoop
  simpa using uploadLoop_go uploadOk files []

/-!
## Claim theorems
-/

/-- C2: for all finite path sets `A` (working tree) and `B` (remote
snapshot) and content functions `f`, `g`, the differ computes
`onlyA = A − B`, `onlyB = B − A`, `common = A ∩ B`; consequently
`added ∩ deleted = ∅`, `modified ⊆ common`, the four classes cover
`A ∪ B`, and they are pairwise disjoint — every path of `A ∪ B` falls in
exactly one of added / deleted / modified / unmodified. -/
theorem treeDiffer_partition (A B : Finset Path) (f g : Path → Bytes) :
    added_files A B = A \ B ∧
    deleted_files A B = B \ A ∧
    common_files A B = A ∩ B ∧
    added_files A B ∩ deleted_files A B = ∅ ∧
    modified_files ⟨A, f⟩ ⟨B, g⟩ (common_files A B) ⊆ common_files A B ∧
    added_files A B ∪ deleted_files A B ∪
        modified_files ⟨A, f⟩ ⟨B, g⟩ (common_files A B) ∪
        unmodified_files ⟨A, f⟩ ⟨B, g⟩ (common_files A B) = A ∪ B ∧
    added_files A B ∩ modified_files ⟨A, f⟩ ⟨B, g⟩ (common_files A B) = ∅ ∧
    added_files A B ∩ unmodified_files ⟨A, f⟩ ⟨B, g⟩ (common_files A B) = ∅ ∧
    deleted_files A B ∩ modified_files ⟨A, f⟩ ⟨B, g⟩ (common_files A B) = ∅ ∧
    deleted_files A B ∩ unmodified_files ⟨A, f⟩ ⟨B, g⟩ (common_files A B) = ∅ ∧
    modified_files ⟨A, f⟩ ⟨B, g⟩ (common_files A B) ∩
        unmodified_files ⟨A, f⟩ ⟨B, g⟩ (common_files A B) = ∅ := by
  refine ⟨rfl, rfl, rfl, ?_, Finset.filter_subset _ _, ?_, ?_, ?_, ?_, ?_, ?_⟩
  · ext p
    simp only [added_files, deleted_files, Finset.mem_inter, Finset.mem_sdiff,
      Finset.not_mem_empty, iff_false]
    tauto
  · ext p
    simp only [added_files, deleted_files, common_files, modified_files,
      unmodified_files, Finset.mem_union, Finset.mem_sdiff, Finset.mem_inter,
      Finset.mem_filter]
    tauto
  · ext p
    simp only [added_files, common_files, modified_files, Finset.mem_inter,
      Finset.mem_sdiff, Finset.mem_filter, Finset.not_mem_empty, iff_false]
    tauto
  · ext p
    simp only [added_files, common_files, modified_files, unmodified_files,
      Finset.mem_inter, Finset.mem_sdiff, Finset.mem_filter,
      Finset.not_mem_empty, iff_false]
    tauto
  · ext p
    simp only [deleted_files, common_files, modified_files, Finset.mem_inter,
      Finset.mem_sdiff, Finset.mem_filter, Finset.not_mem_empty, iff_false]
    tauto
  · ext p
    simp only [deleted_files, common_files, modified_files, unmodified_files,
      Finset.mem_inter, Finset.mem_sdiff, Finset.mem_filter,
      Finset.not_mem_empty, iff_false]
    tauto
  · ext p
    simp only [unmodified_files, Finset.mem_inter, Finset.mem_sdiff,
      Finset.not_mem_empty, iff_false]
    tauto

/-- C3: a common path is classified as modified exactly when the byte
contents of the two files under the two roots differ, and as unmodified
exactly when they are equal — byte content is the only criterion
entering the classification. -/
theorem contentComparator_byte_exact (locFS remFS : FS)
    (common : Finset Path) (p : Path) :
    (p ∈ modified_files locFS remFS common ↔
      p ∈ common ∧ locFS.content p ≠ remFS.content p) ∧
    (p ∈ unmodified_files locFS remFS common ↔
      p ∈ common ∧ locFS.content p = remFS.content p) := by
  have hm : p ∈ modified_files locFS remFS common ↔
      p ∈ common ∧ locFS.content p ≠ remFS.content p := by
    unfold modified_files
    rw [Finset.mem_filter]
    constructor
    · rintro ⟨hc, hf⟩
      refine ⟨hc, fun he => ?_⟩
      rw [(filecmp_cmp_iff _ _).mpr he] at hf
      cases hf
    · rintro ⟨hc, hne⟩
      refine ⟨hc, ?_⟩
      cases hcmp : filecmp_cmp (locFS.content p) (remFS.content p) with
      | false => rfl
      | true => exact absurd ((filecmp_cmp_iff _ _).mp hcmp) hne
  refine ⟨hm, ?_⟩
  unfold unmodified_files
  rw [Finset.mem_sdiff, hm]
  constructor
  · rintro ⟨hc, hn⟩
    by_cases he : locFS.content p = remFS.content p
    · exact ⟨hc, he⟩
    · exact absurd ⟨hc, he⟩ hn
  · rintro ⟨hc, he⟩
    exact ⟨hc, fun h => h.2 he⟩

/-- C5 counterexample: on a missing root, `generate_file_list` does not
fail at all — `os.walk` swallows the error and the function returns the
empty set, the very same successful result it returns on an existing
empty tree, so the two cases are indistinguishable. -/
theorem missingRoot_indistinguishable_from_empty :
    generate_file_list none = ∅ ∧
    generate_file_list (some emptyFS) = ∅ ∧
    generate_file_list none = generate_file_list (some emptyFS) := by
  refine ⟨rfl, ?_, ?_⟩ <;> decide

/-- C5 amended: for a root that does not exist (or is unreadable), the
lister silently succeeds with the empty set — no `AccessError` exists in
the code — and that result coincides with the one for an existing empty
tree with any content function. -/
theorem snapshotLister_missing_root_empty (f : Path → Bytes) :
    generate_file_list none = ∅ ∧
    generate_file_list (some { files := ∅, content := f }) =
      generate_file_list none := by
  refine ⟨rfl, ?_⟩
  simp [generate_file_list]

/-- C6 counterexample: the file `x.kst-gity` is neither equal to
`.kst-git` nor nested under it, yet the lister omits it, because the
Python check is substring containment. -/
theorem snapshotLister_excludes_substring_match :
    ¬ "x.kst-gity".toList = kstGit ∧
    ¬ (kstGit ++ ['/']) <+: "x.kst-gity".toList ∧
    "x.kst-gity".toList ∉
      generate_file_list
        (some { files := {"x.kst-gity".toList}, content := fun _ => [] }) := by
  refine ⟨by decide, by decide, by decide⟩

/-- C6 amended: the lister returns exactly the files of the root whose
relative path is nonempty and does not contain `.kst-git` as a substring;
paths equal to or nested under `.kst-git` are thereby excluded, but so is
any path that merely contains the substring `.kst-git` anywhere. -/
theorem snapshotLister_membership (fs : FS) (p : Path) :
    p ∈ generate_file_list (some fs) ↔
      p ∈ fs.files ∧ ¬ kstGit <:+: p ∧ p ≠ [] :=
  mem_generate_file_list fs p

/-- C1 counterexample: in a state whose working tree holds the file `a`,
a pull whose initial remote listing fails (the download raises) still
removes `a` — the deletion loop runs before the remote is contacted, so
the working tree is not left untouched. -/
theorem pull_deletes_despite_listing_failure :
    ['a'] ∈ scenario1.working.files ∧
    (pullCmd scenario1 false).2 = false ∧
    ['a'] ∉ (pullCmd scenario1 false).1.working.files := by
  refine ⟨by decide, rfl, by decide⟩

/-- C1 amended: when the initial remote listing (the download call)
fails, pull catches the error and reports failure, but the working tree
has already been cleared: only items under the `.kst-git` metadata
directory survive; every other local file is gone. -/
theorem pull_listing_failure_leaves_tree_cleared (s : RepoState) :
    (pullCmd s false).2 = false ∧
    (pullCmd s false).1.working.files =
      s.working.files.filter (fun p => underKstGit p = true) ∧
    (pullCmd s false).1.working.content = s.working.content ∧
    (pullCmd s false).1.changes = s.changes := by
  exact ⟨rfl, rfl, rfl, rfl⟩

/-- C7 counterexample: starting from Scenario 1 (local file `a`, empty
remote), a first diff run records `a` as added and stages it into the
cached copy; with no intervening local or remote change, a second diff
run still reports `added = {a}` — not the empty set — because the copy is
re-downloaded from the unchanged remote at the start of every diff. -/
theorem diff_second_run_nonempty :
    (diffCmd scenario1 "m" 0).1.working = scenario1.working ∧
    (diffCmd scenario1 "m" 0).1.remote = scenario1.remote ∧
    ¬ (diffCmd (diffCmd scenario1 "m" 0).1 "n" 1).2.1.added = ∅ := by
  refine ⟨diffCmd_working scenario1 "m" 0, diffCmd_remote scenario1 "m" 0, ?_⟩
  rw [diffCmd_outcome, diffCmd_working, diffCmd_remote]
  decide

/-- C7 amended: diff writes neither the working tree nor the remote
store, and a second diff run with no intervening local or remote change
reports exactly the same added/deleted/modified sets as the first run
(so they are empty only when the first run's already were); the first
run's staging affects only the cached copy, which the second run discards
and re-downloads. -/
theorem diff_rerun_same_outcome (s : RepoState) (m1 m2 : String) (t1 t2 : Nat) :
    (diffCmd s m1 t1).1.working = s.working ∧
    (diffCmd s m1 t1).1.remote = s.remote ∧
    (diffCmd (diffCmd s m1 t1).1 m2 t2).2.1 = (diffCmd s m1 t1).2.1 := by
  refine ⟨diffCmd_working s m1 t1, diffCmd_remote s m1 t1, ?_⟩
  rw [diffCmd_outcome, diffCmd_outcome, diffCmd_working, diffCmd_remote]

/-- Staging an all-empty diff changes nothing in the copy. -/
theorem stage_empty_diff (locFS copyFS : FS) (d : DiffOutcome)
    (ha : d.added = ∅) (hd : d.deleted = ∅) (hm : d.modified = ∅) :
    (stage locFS copyFS d).files = copyFS.files ∧
    ∀ p, (stage locFS copyFS d).content p = copyFS.content p := by
  constructor
  · simp [stage, ha, hd]
  · intro p
    simp [stage, ha, hm]

/-- A path reported as added is never also reported as deleted. -/
theorem mem_added_not_deleted (locFS remFS : FS) (p : Path)
    (hp : p ∈ (computeDiff locFS remFS).added) :
    p ∉ (computeDiff locFS remFS).deleted := by
  simp only [computeDiff, added_files, deleted_files, Finset.mem_sdiff] at hp ⊢
  tauto

/-- C4: when added, deleted and modified are all empty, the record step
is rejected (no commit record is produced), and there are no side
effects: the change log and the persisted config bytes are untouched, and
the cached remote snapshot is exactly the freshly downloaded remote tree
— the staging loops create, overwrite and remove nothing. -/
theorem record_rejects_empty_diff (s : RepoState) (msg : String) (ts : Nat)
    (h : (computeDiff s.working s.remote).added = ∅ ∧
         (computeDiff s.working s.remote).deleted = ∅ ∧
         (computeDiff s.working s.remote).modified = ∅) :
    (diffCmd s msg ts).2.2 = none ∧
    (diffCmd s msg ts).1.changes = s.changes ∧
    (diffCmd s msg ts).1.configBytes = s.configBytes ∧
    (diffCmd s msg ts).1.copyFS.files = s.remote.files ∧
    ∀ p, (diffCmd s msg ts).1.copyFS.content p = s.remote.content p := by
  have hs := stage_empty_diff s.working s.remote
    (computeDiff s.working s.remote) h.1 h.2.1 h.2.2
  unfold diffCmd
  dsimp only
  rw [if_pos h]
  exact ⟨rfl, rfl, rfl, hs.1, hs.2⟩

/-- C4 witness: in Scenario 3 (both trees hold `c` with identical bytes)
the computed diff is all-empty, and the record step produces no commit
and leaves the change log untouched. -/
theorem record_rejects_empty_diff_witness :
    ((computeDiff scenario3.working scenario3.remote).added = ∅ ∧
     (computeDiff scenario3.working scenario3.remote).deleted = ∅ ∧
     (computeDiff scenario3.working scenario3.remote).modified = ∅) ∧
    (diffCmd scenario3 "m" 0).2.2 = none ∧
    (diffCmd scenario3 "m" 0).1.changes = scenario3.changes ∧
    (diffCmd scenario3 "m" 0).1.configBytes = scenario3.configBytes :=
  ⟨by decide,
   (record_rejects_empty_diff scenario3 "m" 0 (by decide)).1,
   (record_rejects_empty_diff scenario3 "m" 0 (by decide)).2.1,
   (record_rejects_empty_diff scenario3 "m" 0 (by decide)).2.2.1⟩

/-- C8: a successful record invocation (some diff set non-empty) appends
exactly one new commit record, holding the computed added/deleted/
modified path sets, the supplied message and the timestamp, to the end of
the change log; every previously recorded entry is left unchanged; and
every added file is copied into the cached snapshot at the matching
relative path with its working-tree content. -/
theorem record_appends_one_commit (s : RepoState) (msg : String) (ts : Nat)
    (h : ¬ ((computeDiff s.working s.remote).added = ∅ ∧
            (computeDiff s.working s.remote).deleted = ∅ ∧
            (computeDiff s.working s.remote).modified = ∅)) :
    (diffCmd s msg ts).2.2 =
      some { message := msg
             added := (computeDiff s.working s.remote).added
             deleted := (computeDiff s.working s.remote).deleted
             modified := (computeDiff s.working s.remote).modified
             timestamp := ts } ∧
    (diffCmd s msg ts).1.changes =
      s.changes ++ [{ message := msg
                      added := (computeDiff s.working s.remote).added
                      deleted := (computeDiff s.working s.remote).deleted
                      modified := (computeDiff s.working s.remote).modified
                      timestamp := ts }] ∧
    (diffCmd s msg ts).1.changes.take s.changes.length = s.changes ∧
    ∀ p ∈ (computeDiff s.working s.remote).added,
      p ∈ (diffCmd s msg ts).1.copyFS.files ∧
      (diffCmd s msg ts).1.copyFS.content p = s.working.content p := by
  unfold diffCmd
  dsimp only
  rw [if_neg h]
  refine ⟨rfl, rfl, by simp, ?_⟩
  intro p hp
  constructor
  · show p ∈ (s.remote.files ∪ (computeDiff s.working s.remote).added) \
        (computeDiff s.working s.remote).deleted
    rw [Finset.mem_sdiff]
    exact ⟨Finset.mem_union_right _ hp, mem_added_not_deleted s.working s.remote p hp⟩
  · show (if p ∈ (computeDiff s.working s.remote).added ∨
            p ∈ (computeDiff s.working s.remote).modified
          then s.working.content p else s.remote.content p) = s.working.content p
    rw [if_pos (Or.inl hp)]

/-- C8 witness: in Scenario 1 (local file `a`, empty remote) the diff is
non-empty, and the record step appends exactly the one commit record and
copies `a` into the cached snapshot. -/
theorem record_appends_one_commit_witness :
    (¬ ((computeDiff scenario1.working scenario1.remote).added = ∅ ∧
        (computeDiff scenario1.working scenario1.remote).deleted = ∅ ∧
        (computeDiff scenario1.working scenario1.remote).modified = ∅)) ∧
    ((diffCmd scenario1 "m" 0).2.2 =
      some { message := "m"
             added := (computeDiff scenario1.working scenario1.remote).added
             deleted := (computeDiff scenario1.working scenario1.remote).deleted
             modified := (computeDiff scenario1.working scenario1.remote).modified
             timestamp := 0 } ∧
     (diffCmd scenario1 "m" 0).1.changes =
      scenario1.changes ++
        [{ message := "m"
           added := (computeDiff scenario1.working scenario1.remote).added
           deleted := (computeDiff scenario1.working scenario1.remote).deleted
           modified := (computeDiff scenario1.working scenario1.remote).modified
           timestamp := 0 }] ∧
     (diffCmd scenario1 "m" 0).1.changes.take scenario1.changes.length =
       scenario1.changes ∧
     ∀ p ∈ (computeDiff scenario1.working scenario1.remote).added,
       p ∈ (diffCmd scenario1 "m" 0).1.copyFS.files ∧
       (diffCmd scenario1 "m" 0).1.copyFS.content p =
         scenario1.working.content p) :=
  ⟨by decide, record_appends_one_commit scenario1 "m" 0 (by decide)⟩

/-- C9: the push upload loop is best-effort per file: for any walk
enumerating the copied snapshot and any per-file outcome assignment,
every file of the snapshot is attempted (no failure aborts the batch),
and each attempted path — failed or succeeded — appears in the reported
outcomes with its own outcome. -/
theorem push_best_effort (s : RepoState) (walk : List Path)
    (uploadOk : Path → Bool)
    (hwalk : walk.toFinset = (pushCmd s walk uploadOk).1.files)
    (p : Path) (hp : p ∈ (pushCmd s walk uploadOk).1.files) :
    (p, uploadOk p) ∈ (pushCmd s walk uploadOk).2 := by
  have hpw : p ∈ walk := by
    rw [← hwalk] at hp
    exact List.mem_toFinset.mp hp
  show (p, uploadOk p) ∈ uploadLoop uploadOk walk
  rw [uploadLoop_eq_map]
  exact List.mem_map.mpr ⟨p, hpw, rfl⟩

/-- C9 witness: with tracked files `a`, `b` and the config file in the
copy, and an oracle under which only `a` succeeds, the failing `b` is
still attempted and reported with outcome false. -/
theorem push_best_effort_witness :
    pushWalk.toFinset = (pushCmd pushState pushWalk pushOk).1.files ∧
    ['b'] ∈ (pushCmd pushState pushWalk pushOk).1.files ∧
    (['b'], false) ∈ (pushCmd pushState pushWalk pushOk).2 := by
  refine ⟨by decide, by decide, ?_⟩
  exact push_best_effort pushState pushWalk pushOk (by decide) ['b'] (by decide)

/-- C10: before the upload loop starts, push copies the repository's own
metadata file into the cached snapshot at `.kst-git/config.json` with the
on-disk config bytes; hence, for any walk enumerating the snapshot, the
metadata file is attempted by the upload loop along with the tracked
files. -/
theorem push_uploads_metadata (s : RepoState) (walk : List Path)
    (uploadOk : Path → Bool) :
    kstConfigPath ∈ (pushCmd s walk uploadOk).1.files ∧
    (pushCmd s walk uploadOk).1.content kstConfigPath = s.configBytes ∧
    (walk.toFinset = (pushCmd s walk uploadOk).1.files →
      (kstConfigPath, uploadOk kstConfigPath) ∈ (pushCmd s walk uploadOk).2) := by
  have hmem : kstConfigPath ∈ (pushCmd s walk uploadOk).1.files := by
    show kstConfigPath ∈ s.copyFS.files ∪ {kstConfigPath}
    exact Finset.mem_union_right _ (Finset.mem_singleton_self _)
  refine ⟨hmem, ?_, ?_⟩
  · show (if kstConfigPath = kstConfigPath
          then s.configBytes else s.copyFS.content kstConfigPath) = s.configBytes
    rw [if_pos rfl]
  · intro hw
    have hpw : kstConfigPath ∈ walk := by
      rw [← hw] at hmem
      exact List.mem_toFinset.mp hmem
    show (kstConfigPath, uploadOk kstConfigPath) ∈ uploadLoop uploadOk walk
    rw [uploadLoop_eq_map]
    exact List.mem_map.mpr ⟨kstConfigPath, hpw, rfl⟩

/-- C10 witness: in the concrete push state, the config file is in the
copied snapshot with the on-disk config bytes and is attempted by the
upload loop. -/
theorem push_uploads_metadata_witness :
    pushWalk.toFinset = (pushCmd pushState pushWalk pushOk).1.files ∧
    (kstConfigPath, pushOk kstConfigPath) ∈
      (pushCmd pushState pushWalk pushOk).2 :=
  ⟨by decide,
   (push_uploads_metadata pushState pushWalk pushOk).2.2 (by decide)⟩

end KstGit
